import Mathlib

/-!
# Verification of the `globes` module (GIA_earth)

A shallow embedding, in Lean 4, of the globe / projection / relief-rendering
core found in the repository source (the `globes` IIFE). JavaScript numbers
are modelled as `JSNum` (a rational, `+Infinity`, `-Infinity`, or `NaN`)
where non-finite values matter, and as plain rationals `ℚ` elsewhere
(idealizing IEEE doubles by exact rational arithmetic, as usual for this
kind of development). JavaScript strings are modelled as `List Char`.

External collaborators (the d3 projection library, the DOM) are modelled as
explicit parameters: a projection object carries its `rotate`/`scale`/
`translate`/`precision` state and an `invert` function; the d3 sphere-path
bounds used by `fit` are a function parameter of the `Globe`.

The micro-utility helpers `µ.floorMod`, `µ.clamp` and `µ.isValue` live in a
repository file that is not part of the sources provided here; they are
modelled from the spec where used (see the doc comments).  `_.isFinite` is
the underscore.js library predicate (true exactly on finite numbers).
JavaScript's string-to-number coercion (`+s`) is modelled for decimal
literals, signs, exponents, whitespace and `Infinity`; the hex/octal/binary
literal forms are not modelled (no claim depends on them).
-/

/-- The size of the view as `{width:, height:}` (integer pixel dimensions). -/
structure View where
  width : ℕ
  height : ℕ
deriving DecidableEq

/-- A JavaScript number: finite (modelled as an exact rational), `Infinity`,
`-Infinity`, or `NaN`. -/
inductive JSNum where
  | num (q : ℚ)
  | posInf
  | negInf
  | nan
deriving DecidableEq

/-- The Math.floor function: identity on `±Infinity` and `NaN`. -/
def JSNum.jfloor : JSNum → JSNum
  | .num q => .num ⌊q⌋
  | x => x

/-- The Math.ceil function: identity on `±Infinity` and `NaN`. -/
def JSNum.jceil : JSNum → JSNum
  | .num q => .num ⌈q⌉
  | x => x

/-- The Math.max function on two arguments: `NaN` is absorbing. -/
def JSNum.jmax : JSNum → JSNum → JSNum
  | .nan, _ => .nan
  | _, .nan => .nan
  | .posInf, _ => .posInf
  | _, .posInf => .posInf
  | .negInf, b => b
  | a, .negInf => a
  | .num a, .num b => .num (max a b)

/-- The Math.min function on two arguments: `NaN` is absorbing. -/
def JSNum.jmin : JSNum → JSNum → JSNum
  | .nan, _ => .nan
  | _, .nan => .nan
  | .negInf, _ => .negInf
  | _, .negInf => .negInf
  | .posInf, b => b
  | a, .posInf => a
  | .num a, .num b => .num (min a b)

/-- JavaScript addition (`a + b`) on numbers, with IEEE infinity rules. -/
def JSNum.jadd : JSNum → JSNum → JSNum
  | .nan, _ => .nan
  | _, .nan => .nan
  | .posInf, .negInf => .nan
  | .negInf, .posInf => .nan
  | .posInf, _ => .posInf
  | _, .posInf => .posInf
  | .negInf, _ => .negInf
  | _, .negInf => .negInf
  | .num a, .num b => .num (a + b)

/-- JavaScript negation. -/
def JSNum.jneg : JSNum → JSNum
  | .num q => .num (-q)
  | .posInf => .negInf
  | .negInf => .posInf
  | .nan => .nan

/-- JavaScript subtraction (`a - b`). -/
def JSNum.jsub (a b : JSNum) : JSNum := a.jadd b.jneg

/-- The IEEE `≤` comparison as JavaScript evaluates it: `NaN` compares
false against everything. -/
def JSNum.jle : JSNum → JSNum → Bool
  | .nan, _ => false
  | _, .nan => false
  | .negInf, _ => true
  | _, .negInf => false
  | _, .posInf => true
  | .posInf, _ => false
  | .num a, .num b => decide (a ≤ b)

/-- The underscore.js predicate (used as `_.isFinite`) restricted to numbers: true exactly on
finite numbers. -/
def JSNum.isFiniteNum : JSNum → Bool
  | .num _ => true
  | _ => false

/-- Source `ensureNumber(num, fallback)`:
`_.isFinite(num) || num === Infinity || num === -Infinity ? num : fallback`. -/
def ensureNumber (num fallback : JSNum) : JSNum :=
  if num.isFiniteNum || num = .posInf || num = .negInf then num else fallback

/-- The result record of `clampedBounds`. -/
structure ClampedRect where
  x : JSNum
  y : JSNum
  xMax : JSNum
  yMax : JSNum
  width : JSNum
  height : JSNum
deriving DecidableEq

/-- Source `clampedBounds(bounds, view)`: the projection bounds
`[[x0, y0], [x1, y1]]` clamped to the specified view. -/
def clampedBounds (bounds : (JSNum × JSNum) × (JSNum × JSNum)) (view : View) :
    ClampedRect :=
  let upperLeft := bounds.1
  let lowerRight := bounds.2
  let x := (JSNum.jfloor (ensureNumber upperLeft.1 (.num 0))).jmax (.num 0)
  let y := (JSNum.jfloor (ensureNumber upperLeft.2 (.num 0))).jmax (.num 0)
  let xMax := (JSNum.jceil (ensureNumber lowerRight.1 (.num view.width))).jmin
    (.num ((view.width : ℚ) - 1))
  let yMax := (JSNum.jceil (ensureNumber lowerRight.2 (.num view.height))).jmin
    (.num ((view.height : ℚ) - 1))
  { x := x, y := y, xMax := xMax, yMax := yMax,
    width := (xMax.jsub x).jadd (.num 1), height := (yMax.jsub y).jadd (.num 1) }

/-! ## Micro utilities and the projection registry -/

/-- Modelled from the spec: the µ.floorMod helper lives in a repository
utility file that is not among the provided sources.  Per the spec it is the
"true mathematical modulo (always non-negative result for positive `n`)". -/
def floorMod (a n : ℚ) : ℚ := a - n * ⌊a / n⌋

/-- Modelled from the spec: the µ.clamp helper lives in a repository
utility file that is not among the provided sources.  Per the spec the
decoded scale is "clamped to the projection's configured `[minScale,
maxScale]` extent", i.e. `clamp(x, lo, hi) = max(lo, min(x, hi))`. -/
def clamp (x lo hi : ℚ) : ℚ := max lo (min x hi)

/-- Source `currentPosition()`: rotation of the globe to the current
position of the user, estimated from the timezone offset (in minutes,
passed here explicitly instead of reading `new Date().getTimezoneOffset()`):
`[µ.floorMod(offset / 4, 360), 0]`. -/
def currentPosition (tzOffsetMinutes : ℚ) : ℚ × ℚ :=
  (floorMod (tzOffsetMinutes / 4) 360, 0)

/-- A d3 projection rotation `[λ, φ, γ]`; a two-element `rotate` array in
the source corresponds to roll `γ = 0`. -/
abbrev Rot := ℚ × ℚ × ℚ

/-- The two-element `currentPosition` array as a three-angle rotation
(d3 pads the missing roll with `0`). -/
def rotOfPair (p : ℚ × ℚ) : Rot := (p.1, p.2, 0)

/-- The eight named projection constructors of the registry. -/
inductive GlobeName where
  | atlantis
  | azimuthal_equidistant
  | conic_equidistant
  | equirectangular
  | orthographic
  | stereographic
  | waterman
  | winkel3
deriving DecidableEq

/-- The default rotation each registry constructor configures on its fresh
projection, as a function of the user's timezone offset (in minutes).
Read off the `rotate(...)` call of each `newProjection` in the source;
`winkel3` makes no `rotate` call, so it keeps d3's default `[0, 0, 0]`. -/
def defaultRotation : GlobeName → ℚ → Rot
  | .atlantis, _ => (30, -45, 90)
  | .azimuthal_equidistant, _ => (0, -90, 0)
  | .conic_equidistant, tz => rotOfPair (currentPosition tz)
  | .equirectangular, tz => rotOfPair (currentPosition tz)
  | .orthographic, tz => rotOfPair (currentPosition tz)
  | .stereographic, _ => (-43, -20, 0)
  | .waterman, _ => (20, 0, 0)
  | .winkel3, _ => (0, 0, 0)

/-- A constructor "derives its default rotation from the user's local
timezone offset via `floorMod(timezoneOffsetMinutes / 4, 360)`" when its
default rotation is `currentPosition` of the offset, for every offset. -/
def TimezoneDerived (c : GlobeName) : Prop :=
  ∀ tz : ℚ, defaultRotation c tz = rotOfPair (currentPosition tz)

/-! ## JavaScript strings: split, trim and string-to-number coercion -/

/-- The characters JavaScript trims around a numeric string
(the ASCII whitespace forms). -/
def isJsWhitespace (c : Char) : Bool :=
  c == ' ' || c == '\t' || c == '\n' || c == '\r' || c == '\x0b' || c == '\x0c'

/-- Trim whitespace from both ends, as `StringToNumber` does. -/
def jsTrim (cs : List Char) : List Char :=
  ((cs.dropWhile isJsWhitespace).reverse.dropWhile isJsWhitespace).reverse

/-- The String.prototype.split method with a single-character separator:
`"".split(",") == [""]`, and a trailing separator yields a trailing `""`. -/
def splitSep (sep : Char) : List Char → List (List Char)
  | [] => [[]]
  | c :: rest =>
    if c = sep then [] :: splitSep sep rest
    else
      match splitSep sep rest with
      | g :: gs => (c :: g) :: gs
      | [] => [[c]]

/-- Split a character list at the first character satisfying `p`, dropping
the separator: `(before, some after)` or `(cs, none)`. -/
def breakAt (p : Char → Bool) : List Char → List Char × Option (List Char)
  | [] => ([], none)
  | c :: rest =>
    if p c then ([], some rest)
    else
      match breakAt p rest with
      | (m, e) => (c :: m, e)

/-- Numeric value of one decimal digit character. -/
def digitVal (c : Char) : ℕ := c.toNat - 48

/-- Value of a most-significant-first digit string. -/
def digitsVal (cs : List Char) : ℕ :=
  cs.foldl (fun a c => a * 10 + digitVal c) 0

/-- An exponent marker in a JavaScript decimal literal. -/
def expMark (c : Char) : Bool := c == 'e' || c == 'E'

/-- Parse the mantissa of a decimal literal: digits, with an optional single
decimal point; at least one digit overall (`"1."`, `".5"` and `"12"` are
all accepted, `"."` and `""` are not). -/
def parseMantissa (cs : List Char) : Option ℚ :=
  match splitSep '.' cs with
  | [intPart] =>
    if intPart ≠ [] ∧ intPart.all Char.isDigit then some (digitsVal intPart : ℚ)
    else none
  | [intPart, fracPart] =>
    if (intPart ≠ [] ∨ fracPart ≠ []) ∧ intPart.all Char.isDigit ∧
        fracPart.all Char.isDigit then
      some ((digitsVal intPart : ℚ) + (digitsVal fracPart : ℚ) / 10 ^ fracPart.length)
    else none
  | _ => none

/-- Parse a non-empty unsigned digit string (an exponent magnitude). -/
def parseExpDigits (cs : List Char) : Option ℤ :=
  if cs ≠ [] ∧ cs.all Char.isDigit then some (digitsVal cs : ℤ) else none

/-- Parse a signed exponent part (after the `e`/`E`). -/
def parseExpPart (cs : List Char) : Option ℤ :=
  if cs.head? = some '+' then parseExpDigits (cs.drop 1)
  else if cs.head? = some '-' then (parseExpDigits (cs.drop 1)).map (fun z => -z)
  else parseExpDigits cs

/-- Parse an unsigned decimal literal with optional exponent. -/
def parseUnsigned (cs : List Char) : Option ℚ :=
  match breakAt expMark cs with
  | (m, none) => parseMantissa m
  | (m, some e) =>
    match parseMantissa m, parseExpPart e with
    | some q, some z => some (q * (10 : ℚ) ^ z)
    | _, _ => none

/-- The characters of the literal `Infinity`. -/
def infinityChars : List Char := ['I', 'n', 'f', 'i', 'n', 'i', 't', 'y']

/-- Parse an unsigned numeric string body (after sign stripping):
`Infinity` or an unsigned decimal literal; anything else is `NaN`. -/
def parseNonneg (cs : List Char) : JSNum :=
  if cs = infinityChars then .posInf
  else
    match parseUnsigned cs with
    | some q => .num q
    | none => .nan

/-- JavaScript's `StringToNumber` (the `+s` coercion), modelled for decimal
literals: trim whitespace, empty means `0`, an optional single sign, then
`Infinity` or a decimal literal with optional fraction and exponent;
everything else is `NaN`.  (The hex/octal/binary literal forms are not
modelled; no orientation string uses them.) -/
def jsStringToNumber (cs : List Char) : JSNum :=
  let t := jsTrim cs
  if t = [] then .num 0
  else if t.head? = some '+' then parseNonneg (t.drop 1)
  else if t.head? = some '-' then (parseNonneg (t.drop 1)).jneg
  else parseNonneg t

/-- Coercion `+parts[i]` where `parts[i]` may be `undefined` (out of range):
`+undefined` is `NaN`. -/
def jsToNumber : Option (List Char) → JSNum
  | none => .nan
  | some cs => jsStringToNumber cs

/-! ## Number formatting (`toFixed(2)`, `String(int)`) -/

/-- The character of one decimal digit. -/
def digitChar (n : ℕ) : Char := Char.ofNat (48 + n)

/-- Most-significant-first decimal digits of a natural number. -/
def natDigits (n : ℕ) : List Char :=
  if _h : n < 10 then [digitChar n]
  else natDigits (n / 10) ++ [digitChar (n % 10)]
decreasing_by exact Nat.div_lt_self (by omega) (by omega)

/-- The Number.prototype.toFixed(2) method: the decimal string with exactly two
fraction digits denoting `round(q * 100) / 100` (ties round toward `+∞`,
as in the ECMAScript specification; the sign of a negative zero result is
dropped, which does not change the denoted value). -/
def toFixed2Chars (q : ℚ) : List Char :=
  let k : ℤ := round (q * 100)
  let m : ℕ := k.natAbs
  let body := natDigits (m / 100) ++ '.' :: [digitChar (m % 100 / 10), digitChar (m % 100 % 10)]
  if k < 0 then '-' :: body else body

/-- Stringification `String(z)` for an integer (as produced by `Math.round`). -/
def intChars (z : ℤ) : List Char :=
  if z < 0 then '-' :: natDigits z.natAbs else natDigits z.natAbs

/-! ## Projection state and the Globe -/

/-- The mutable state of a d3 projection object: rotation, scale, translate
and path-sampling precision. -/
structure ProjState where
  rotate : Rot
  scale : ℚ
  translate : ℚ × ℚ
  precision : ℚ
deriving DecidableEq

/-- A Globe: the current projection plus the behavior the `orientation`,
`fit` and `bounds` operations consult.  The variant's `newProjection`
constructor and the d3 sphere-path bounds computation (used by `fit`) are
external collaborators, modelled as function-valued fields. -/
structure Globe where
  projection : ProjState
  newProjection : View → ProjState
  sphereBounds : ProjState → (ℚ × ℚ) × (ℚ × ℚ)
  scaleExtent : ℚ × ℚ
  center : View → ℚ × ℚ

/-- Source `scaleExtent()`: the default zoom range `[100, 10000]`. -/
def standardScaleExtent : ℚ × ℚ := (100, 10000)

/-- Source `center(view)`: the exact view center. -/
def standardCenter (view : View) : ℚ × ℚ :=
  ((view.width : ℚ) / 2, (view.height : ℚ) / 2)

/-- Source `fit(view)`: build a fresh default projection for the view,
measure the sphere outline's bounding box under it, and return the scale
that makes the sphere occupy 90% of the limiting view dimension. -/
def fit (g : Globe) (view : View) : ℚ :=
  let defaultProjection := g.newProjection view
  let bounds := g.sphereBounds defaultProjection
  let hScale := (bounds.2.1 - bounds.1.1) / defaultProjection.scale
  let vScale := (bounds.2.2 - bounds.1.2) / defaultProjection.scale
  min ((view.width : ℚ) / hScale) ((view.height : ℚ) / vScale) * (9 / 10)

/-- Source `orientation()` (getter branch): encode the current orientation
as `"-rotate0_fixed2,-rotate1_fixed2,round(scale)"`. -/
def orientationGet (g : Globe) : List Char :=
  toFixed2Chars (-g.projection.rotate.1) ++
    ',' :: (toFixed2Chars (-g.projection.rotate.2.1) ++
      ',' :: intChars (round g.projection.scale))

/-- Source `orientation(o, view)` (setter branch, taken when `µ.isValue(o)`;
`µ.isValue` is a repository utility modelled from the spec as "the argument
is present"): split on `","`, coerce the three fields to numbers; if
longitude and latitude are both finite rotate to `[-λ, -φ, roll]`, else to
the variant's default rotation; if the scale is finite clamp it to the
scale extent, else fall back to the fit scale; recenter the translate. -/
def orientationSet (g : Globe) (o : List Char) (view : View) : Globe :=
  let rotate := g.projection.rotate
  let parts := splitSep ',' o
  let lam := jsToNumber (parts.get? 0)
  let phi := jsToNumber (parts.get? 1)
  let scl := jsToNumber (parts.get? 2)
  let newRotate : Rot :=
    match lam, phi with
    | .num a, .num b => (-a, -b, rotate.2.2)
    | _, _ => (g.newProjection view).rotate
  let newScale : ℚ :=
    match scl with
    | .num s => clamp s g.scaleExtent.1 g.scaleExtent.2
    | _ => fit g view
  { g with
    projection :=
      { g.projection with
        rotate := newRotate, scale := newScale, translate := g.center view } }

/-! ## The Manipulator -/

/-- The state a `manipulator(startMouse, startScale)` session captures at
construction. -/
structure ManipSession where
  startMouse : ℚ × ℚ
  sensitivity : ℚ
  rotation : ℚ × ℚ
  original : ℚ

/-- Source `manipulator(startMouse, startScale)`: capture
`sensitivity = 60 / startScale`, the pre-scaled rotation offsets and the
original precision, and boost the projection precision tenfold.  Returns
the session record and the mutated projection. -/
def manipulator (p : ProjState) (startMouse : ℚ × ℚ) (startScale : ℚ) :
    ManipSession × ProjState :=
  let sensitivity := 60 / startScale
  let rotation := (p.rotate.1 / sensitivity, -p.rotate.2.1 / sensitivity)
  let original := p.precision
  (⟨startMouse, sensitivity, rotation, original⟩,
    { p with precision := original * 10 })

/-- Source `move(mouse, scale)`: if a mouse position is given (JavaScript
truthiness, modelled by `Option`), rotate to the session-absolute angles
derived from the drag delta; always apply the scale. -/
def manipMove (m : ManipSession) (mouse : Option (ℚ × ℚ)) (scale : ℚ)
    (p : ProjState) : ProjState :=
  let p1 :=
    match mouse with
    | some mo =>
      let xd := mo.1 - m.startMouse.1 + m.rotation.1
      let yd := mo.2 - m.startMouse.2 + m.rotation.2
      { p with rotate := (xd * m.sensitivity, -yd * m.sensitivity, p.rotate.2.2) }
    | none => p
  { p1 with scale := scale }

/-- Source `end()`: restore the recorded original precision. -/
def manipEnd (m : ManipSession) (p : ProjState) : ProjState :=
  { p with precision := m.original }

/-! ## The relief renderer -/

/-- A decoded relief raster: image dimensions and the flat RGBA byte
buffer (`data[(iy * width + ix) * 4 + channel]`). -/
structure Raster where
  width : ℕ
  height : ℕ
  data : ℕ → ℕ

/-- One relief tier (`reliefHi` / `reliefLo`): loaded flag and, when
decoded, the raster. -/
structure ReliefTier where
  loaded : Bool
  data : Option Raster

/-- An RGBA pixel buffer as produced by `createImageData`. -/
structure ImageData where
  width : ℕ
  height : ℕ
  data : ℕ → ℕ

/-- The relief cache key: the source builds the string
`rotate.join(",") + ":" + scale + ":" + translate.join(",") + ":" +
view.width + ":" + view.height`; distinct component tuples format to
distinct strings, so the key is modelled by the tuple itself. -/
structure ReliefKey where
  rot : Rot
  scl : ℚ
  tr : ℚ × ℚ
  w : ℕ
  h : ℕ
deriving DecidableEq

/-- The projection object as `drawRelief` consumes it: the state read by
the cache key plus the inverse projection. -/
structure ProjObj where
  rotate : Rot
  scale : ℚ
  translate : ℚ × ℚ
  invert : ℚ × ℚ → Option (ℚ × ℚ)

/-- The per-globe relief overlay state set up by `standardGlobe()`. -/
structure ReliefState where
  reliefHi : ReliefTier
  reliefLo : ReliefTier
  useReliefLo : Bool
  reliefFastW : ℕ
  reliefFastH : ℕ
  reliefCache : List (ReliefKey × ImageData)

/-- What one `drawRelief` call painted onto the relief canvas. -/
inductive ReliefDraw where
  | none
  | cached (img : ImageData)
  | full (img : ImageData)
  | fast (img : ImageData)

/-- Source `getReliefCacheKey(projection, view)`. -/
def getReliefCacheKey (proj : ProjObj) (view : View) : ReliefKey :=
  ⟨proj.rotate, proj.scale, proj.translate, view.width, view.height⟩

/-- JavaScript object property read `cache[key]`. -/
def cacheLookup (k : ReliefKey) : List (ReliefKey × ImageData) → Option ImageData
  | [] => none
  | p :: rest => if p.1 = k then some p.2 else cacheLookup k rest

/-- Remove every binding of `k` (helper for property assignment). -/
def cacheRemove (k : ReliefKey) : List (ReliefKey × ImageData) → List (ReliefKey × ImageData)
  | [] => []
  | p :: rest => if p.1 = k then cacheRemove k rest else p :: cacheRemove k rest

/-- JavaScript object property write `cache[key] = v` (replaces any
previous binding of the same key, keeps all others). -/
def cacheInsert (k : ReliefKey) (v : ImageData)
    (c : List (ReliefKey × ImageData)) : List (ReliefKey × ImageData) :=
  (k, v) :: cacheRemove k c

/-- Storing into a `Uint8ClampedArray` slot: clamp to `[0, 255]`. -/
def u8store (z : ℤ) : ℕ := (min (max z 0) 255).toNat

/-- The raster column sampled for longitude `lon`:
`Math.round((lon + 180) / 360 * (width - 1))`. -/
def reliefIx (raster : Raster) (lon : ℚ) : ℤ :=
  round ((lon + 180) / 360 * ((raster.width : ℚ) - 1))

/-- The raster row sampled for latitude `lat`:
`Math.round((90 - lat) / 180 * (height - 1))`. -/
def reliefIy (raster : Raster) (lat : ℚ) : ℤ :=
  round ((90 - lat) / 180 * ((raster.height : ℚ) - 1))

/-- The shared per-pixel body of both relief sweeps: inverse-project the
screen point, skip it if off-globe or outside the raster, otherwise copy
RGB and attenuate alpha to `Math.round(alpha * 0.7)`. -/
def reliefSample (raster : Raster) (invert : ℚ × ℚ → Option (ℚ × ℚ))
    (sx sy : ℚ) : Option (ℕ × ℕ × ℕ × ℕ) :=
  match invert (sx, sy) with
  | Option.none => none
  | some lonlat =>
    let ix := reliefIx raster lonlat.1
    let iy := reliefIy raster lonlat.2
    if ix < 0 ∨ (raster.width : ℤ) ≤ ix ∨ iy < 0 ∨ (raster.height : ℤ) ≤ iy then
      none
    else
      let idx := (iy.toNat * raster.width + ix.toNat) * 4
      some (u8store (raster.data idx), u8store (raster.data (idx + 1)),
        u8store (raster.data (idx + 2)),
        u8store (round ((raster.data (idx + 3) : ℚ) * (7 / 10))))

/-- The high-fidelity sweep: one `reliefSample` per output pixel at its own
screen coordinate; skipped pixels keep the `createImageData` zero fill.
(The source's doubly nested loop writes each pixel's four bytes exactly
once, so the buffer is given pointwise.) -/
def fullSweep (raster : Raster) (invert : ℚ × ℚ → Option (ℚ × ℚ))
    (view : View) : ImageData :=
  { width := view.width, height := view.height,
    data := fun i =>
      if view.width = 0 then 0
      else
        let p := i / 4
        let x := p % view.width
        let y := p / view.width
        if y < view.height then
          match reliefSample raster invert (x : ℚ) (y : ℚ) with
          | some px =>
            match i % 4 with
            | 0 => px.1
            | 1 => px.2.1
            | 2 => px.2.2.1
            | _ => px.2.2.2
          | Option.none => 0
        else 0 }

/-- The low-fidelity sweep on the downsampled fast canvas: the same
per-pixel body, with each fast-canvas coordinate scaled up to view
coordinates before inverse-projecting. -/
def fastSweep (raster : Raster) (invert : ℚ × ℚ → Option (ℚ × ℚ))
    (view : View) (fastW fastH : ℕ) : ImageData :=
  { width := fastW, height := fastH,
    data := fun i =>
      if fastW = 0 then 0
      else
        let p := i / 4
        let x := p % fastW
        let y := p / fastW
        if y < fastH then
          match reliefSample raster invert ((x : ℚ) / (fastW : ℚ) * (view.width : ℚ))
              ((y : ℚ) / (fastH : ℚ) * (view.height : ℚ)) with
          | some px =>
            match i % 4 with
            | 0 => px.1
            | 1 => px.2.1
            | 2 => px.2.2.1
            | _ => px.2.2.2
          | Option.none => 0
        else 0 }

/-- Source `drawRelief(view, projection)`: select the tier, no-op unless it
is loaded; in the high-fidelity case blit a dimension-matching cache entry
if present, else run the full sweep and store it in the cache; in the
low-fidelity case run the downsampled sweep (never touching the cache) and
upscale it onto the canvas. -/
def drawRelief (s : ReliefState) (view : View) (proj : ProjObj) :
    ReliefState × ReliefDraw :=
  let relief := if s.useReliefLo then s.reliefLo else s.reliefHi
  match relief.loaded, relief.data with
  | true, some raster =>
    let cacheKey := getReliefCacheKey proj view
    let hit : Option ImageData :=
      if s.useReliefLo then none
      else
        match cacheLookup cacheKey s.reliefCache with
        | some cached =>
          if cached.width = view.width ∧ cached.height = view.height then some cached
          else none
        | Option.none => none
    match hit with
    | some cached => (s, .cached cached)
    | Option.none =>
      if s.useReliefLo then
        (s, .fast (fastSweep raster proj.invert view s.reliefFastW s.reliefFastH))
      else
        let outImg := fullSweep raster proj.invert view
        ({ s with reliefCache := cacheInsert cacheKey outImg s.reliefCache },
          .full outImg)
  | _, _ => (s, .none)

/-- Source `clearReliefCache()`. -/
def clearReliefCache (s : ReliefState) : ReliefState :=
  { s with reliefCache := [] }

/-- Source `reliefFastScale = 0.25` and the fast-canvas sizing from
`initReliefCanvas`: `Math.round(view.dimension * reliefFastScale)`. -/
def initReliefFastDims (view : View) : ℕ × ℕ :=
  ((round ((view.width : ℚ) * (1 / 4))).toNat,
    (round ((view.height : ℚ) * (1 / 4))).toNat)

/-! ## Sample objects used by witnesses and counterexamples -/

/-- A concrete projection state for witness instantiations. -/
def sampleProj : ProjState :=
  { rotate := (30, -45, 90), scale := 500, translate := (0, 0), precision := 1 / 10 }

/-- The fresh default projection the sample globe's variant constructs:
the constant rotation `[30, -45, 90]` of the `atlantis` variant. -/
def sampleDefaultProj : ProjState :=
  { rotate := (30, -45, 90), scale := 150, translate := (0, 0), precision := 1 / 10 }

/-- A concrete globe (variant behavior instantiated explicitly) for witness
instantiations. -/
def sampleGlobe : Globe :=
  { projection := sampleProj,
    newProjection := fun _ => sampleDefaultProj,
    sphereBounds := fun _ => ((0, 0), (2, 1)),
    scaleExtent := standardScaleExtent,
    center := standardCenter }

/-- A concrete view. -/
def sampleView : View := ⟨800, 400⟩

/-- A 1×1 opaque raster. -/
def sampleRaster : Raster := { width := 1, height := 1, data := fun _ => 255 }

/-- A 1×1 view for relief witnesses. -/
def tinyView : View := ⟨1, 1⟩

/-- A relief state with the high tier loaded and an empty cache. -/
def sampleReliefState : ReliefState :=
  { reliefHi := { loaded := true, data := some sampleRaster },
    reliefLo := { loaded := true, data := some sampleRaster },
    useReliefLo := false,
    reliefFastW := 1, reliefFastH := 1,
    reliefCache := [] }

/-- A relief state like `sampleReliefState` but with the low-resolution
tier selected. -/
def sampleReliefStateLo : ReliefState :=
  { sampleReliefState with useReliefLo := true }

/-- An inverse projection mapping every screen point to `(0°, 0°)`. -/
def sampleInvert : ℚ × ℚ → Option (ℚ × ℚ) := fun _ => some (0, 0)

/-- A projection object whose inverse projection maps everything to the
point `(0°, 0°)`. -/
def sampleProjObjA : ProjObj :=
  { rotate := (0, 0, 0), scale := 1, translate := (0, 0),
    invert := sampleInvert }

/-- Like `sampleProjObjA`, with a different rotation (hence a different
cache key). -/
def sampleProjObjB : ProjObj :=
  { rotate := (1, 0, 0), scale := 1, translate := (0, 0),
    invert := sampleInvert }

/-- The malformed orientation string `"0,0,abc"` (finite longitude and
latitude, unparsable scale). -/
def scaleFailString : List Char := ['0', ',', '0', ',', 'a', 'b', 'c']

/-- The malformed orientation string `"abc,def,ghi"` from the spec. -/
def allFailString : List Char :=
  ['a', 'b', 'c', ',', 'd', 'e', 'f', ',', 'g', 'h', 'i']

/-! ## Helper lemmas: digits and decimal formatting -/

theorem digitVal_digitChar (d : ℕ) (h : d < 10) : digitVal (digitChar d) = d := by
  interval_cases d <;> rfl

theorem isDigit_digitChar (d : ℕ) (h : d < 10) : (digitChar d).isDigit = true := by
  interval_cases d <;> rfl

theorem natDigits_all_digit (n : ℕ) : ∀ c ∈ natDigits n, c.isDigit = true := by
  induction n using Nat.strong_induction_on with
  | _ n ih =>
    rw [natDigits]
    split
    · next h =>
      intro c hc
      rw [List.mem_singleton] at hc
      subst hc
      exact isDigit_digitChar n h
    · next h =>
      intro c hc
      rw [List.mem_append] at hc
      rcases hc with hc | hc
      · exact ih (n / 10) (Nat.div_lt_self (by omega) (by omega)) c hc
      · rw [List.mem_singleton] at hc
        subst hc
        exact isDigit_digitChar (n % 10) (Nat.mod_lt _ (by omega))

theorem natDigits_ne_nil (n : ℕ) : natDigits n ≠ [] := by
  rw [natDigits]
  split
  · simp
  · simp

theorem digitsVal_append_singleton (xs : List Char) (c : Char) :
    digitsVal (xs ++ [c]) = digitsVal xs * 10 + digitVal c := by
  simp [digitsVal, List.foldl_append]

theorem digitsVal_natDigits (n : ℕ) : digitsVal (natDigits n) = n := by
  induction n using Nat.strong_induction_on with
  | _ n ih =>
    rw [natDigits]
    split
    · next h =>
      simp [digitsVal, digitVal_digitChar n h]
    · next h =>
      rw [digitsVal_append_singleton,
        ih (n / 10) (Nat.div_lt_self (by omega) (by omega)),
        digitVal_digitChar (n % 10) (Nat.mod_lt _ (by omega))]
      omega

/-! ## Helper lemmas: character classes, trimming and splitting -/

theorem digit_ne (c x : Char) (h : c.isDigit = true) (hx : x.isDigit = false) :
    c ≠ x := by
  rintro rfl
  rw [h] at hx
  exact absurd hx (by simp)

theorem not_ws_of_digit (c : Char) (h : c.isDigit = true) :
    isJsWhitespace c = false := by
  have h1 : c ≠ ' ' := digit_ne c ' ' h (by decide)
  have h2 : c ≠ '\t' := digit_ne c '\t' h (by decide)
  have h3 : c ≠ '\n' := digit_ne c '\n' h (by decide)
  have h4 : c ≠ '\r' := digit_ne c '\r' h (by decide)
  have h5 : c ≠ '\x0b' := digit_ne c '\x0b' h (by decide)
  have h6 : c ≠ '\x0c' := digit_ne c '\x0c' h (by decide)
  simp [isJsWhitespace, h1, h2, h3, h4, h5, h6]

theorem expMark_of_digit (c : Char) (h : c.isDigit = true) :
    expMark c = false := by
  have h1 : c ≠ 'e' := digit_ne c 'e' h (by decide)
  have h2 : c ≠ 'E' := digit_ne c 'E' h (by decide)
  simp [expMark, h1, h2]

theorem dropWhile_eq_self_of (p : Char → Bool) (l : List Char)
    (h : ∀ c ∈ l, p c = false) : l.dropWhile p = l := by
  cases l with
  | nil => rfl
  | cons a t =>
    rw [List.dropWhile_cons, h a (List.mem_cons_self a t)]
    simp

theorem jsTrim_eq_self_of (cs : List Char)
    (h : ∀ c ∈ cs, isJsWhitespace c = false) : jsTrim cs = cs := by
  rw [jsTrim, dropWhile_eq_self_of _ _ h, dropWhile_eq_self_of, List.reverse_reverse]
  intro c hc
  exact h c (List.mem_reverse.mp hc)

theorem splitSep_ne_nil (sep : Char) (cs : List Char) : splitSep sep cs ≠ [] := by
  cases cs with
  | nil => simp [splitSep]
  | cons c rest =>
    rw [splitSep]
    split
    · simp
    · split
      · simp
      · simp

theorem splitSep_not_mem (sep : Char) (cs : List Char) (h : sep ∉ cs) :
    splitSep sep cs = [cs] := by
  induction cs with
  | nil => rfl
  | cons c rest ih =>
    rw [splitSep]
    have hc : ¬(c = sep) := fun hcc => h (hcc ▸ List.mem_cons_self c rest)
    rw [if_neg hc, ih (fun hm => h (List.mem_cons_of_mem c hm))]

theorem splitSep_append (sep : Char) (A R : List Char) (h : sep ∉ A) :
    splitSep sep (A ++ sep :: R) = A :: splitSep sep R := by
  induction A with
  | nil =>
    rw [List.nil_append, splitSep, if_pos rfl]
  | cons a A ih =>
    rw [List.cons_append, splitSep]
    have ha : ¬(a = sep) := fun hcc => h (hcc ▸ List.mem_cons_self a A)
    rw [if_neg ha, ih (fun hm => h (List.mem_cons_of_mem a hm))]

theorem breakAt_none (p : Char → Bool) (cs : List Char)
    (h : ∀ c ∈ cs, p c = false) : breakAt p cs = (cs, none) := by
  induction cs with
  | nil => rfl
  | cons c rest ih =>
    rw [breakAt, h c (List.mem_cons_self c rest)]
    simp only [Bool.false_eq_true, if_false]
    rw [ih (fun d hd => h d (List.mem_cons_of_mem c hd))]

/-! ## Helper lemmas: parsing the formatted orientation fields -/

theorem parseMantissa_digits (cs : List Char) (hne : cs ≠ [])
    (hd : ∀ c ∈ cs, c.isDigit = true) :
    parseMantissa cs = some (digitsVal cs : ℚ) := by
  have hdot : ('.' : Char) ∉ cs := fun hm => digit_ne _ '.' (hd _ hm) (by decide) rfl
  have hall : cs.all Char.isDigit = true := List.all_eq_true.mpr hd
  unfold parseMantissa
  rw [splitSep_not_mem _ _ hdot]
  simp [hne, hall]

theorem twoDigit_val (f : ℕ) (hf : f < 100) :
    digitsVal [digitChar (f / 10), digitChar (f % 10)] = f := by
  show (0 * 10 + digitVal (digitChar (f / 10))) * 10 + digitVal (digitChar (f % 10)) = f
  rw [digitVal_digitChar _ (show f / 10 < 10 by omega),
    digitVal_digitChar _ (show f % 10 < 10 by omega)]
  omega

theorem parseMantissa_fixed (a f : ℕ) (hf : f < 100) :
    parseMantissa (natDigits a ++ '.' :: [digitChar (f / 10), digitChar (f % 10)]) =
      some ((a : ℚ) + (f : ℚ) / 100) := by
  have hd1 : (digitChar (f / 10)).isDigit = true := isDigit_digitChar _ (by omega)
  have hd0 : (digitChar (f % 10)).isDigit = true := isDigit_digitChar _ (by omega)
  have hdotA : ('.' : Char) ∉ natDigits a :=
    fun hm => digit_ne _ '.' (natDigits_all_digit a _ hm) (by decide) rfl
  have hdotF : ('.' : Char) ∉ [digitChar (f / 10), digitChar (f % 10)] := by
    intro hm
    rcases List.mem_cons.mp hm with hm | hm
    · exact digit_ne _ '.' hd1 (by decide) hm.symm
    · rw [List.mem_singleton] at hm
      exact digit_ne _ '.' hd0 (by decide) hm.symm
  unfold parseMantissa
  rw [splitSep_append _ _ _ hdotA, splitSep_not_mem _ _ hdotF]
  have hallA : (natDigits a).all Char.isDigit = true :=
    List.all_eq_true.mpr (natDigits_all_digit a)
  have hallF : ([digitChar (f / 10), digitChar (f % 10)]).all Char.isDigit = true := by
    simp [hd1, hd0]
  simp only [hallA, hallF, natDigits_ne_nil a, ne_eq, not_false_eq_true, true_or,
    true_and, and_true, if_true, if_pos]
  rw [digitsVal_natDigits, twoDigit_val f hf]
  norm_num

theorem body_not_infinity (a f : ℕ) :
    natDigits a ++ '.' :: [digitChar (f / 10), digitChar (f % 10)] ≠ infinityChars := by
  obtain ⟨c, t, hct⟩ := List.exists_cons_of_ne_nil (natDigits_ne_nil a)
  have hcd : c.isDigit = true := natDigits_all_digit a c (hct ▸ List.mem_cons_self c t)
  rw [hct, List.cons_append, infinityChars]
  intro h
  rw [List.cons_eq_cons] at h
  exact digit_ne c 'I' hcd (by decide) h.1

theorem digits_not_infinity (cs : List Char) (hne : cs ≠ [])
    (hd : ∀ c ∈ cs, c.isDigit = true) : cs ≠ infinityChars := by
  obtain ⟨c, t, hct⟩ := List.exists_cons_of_ne_nil hne
  have hcd : c.isDigit = true := hd c (hct ▸ List.mem_cons_self c t)
  rw [hct, infinityChars]
  intro h
  rw [List.cons_eq_cons] at h
  exact digit_ne c 'I' hcd (by decide) h.1

theorem expMark_body (a f : ℕ) (hf : f < 100) :
    ∀ c ∈ natDigits a ++ '.' :: [digitChar (f / 10), digitChar (f % 10)],
      expMark c = false := by
  intro c hc
  rcases List.mem_append.mp hc with hc | hc
  · exact expMark_of_digit c (natDigits_all_digit a c hc)
  · rcases List.mem_cons.mp hc with rfl | hc
    · decide
    · rcases List.mem_cons.mp hc with rfl | hc
      · exact expMark_of_digit _ (isDigit_digitChar _ (by omega))
      · rw [List.mem_singleton] at hc
        subst hc
        exact expMark_of_digit _ (isDigit_digitChar _ (by omega))

theorem parseNonneg_body (a f : ℕ) (hf : f < 100) :
    parseNonneg (natDigits a ++ '.' :: [digitChar (f / 10), digitChar (f % 10)]) =
      .num ((a : ℚ) + (f : ℚ) / 100) := by
  unfold parseNonneg
  rw [if_neg (body_not_infinity a f)]
  simp only [parseUnsigned, breakAt_none _ _ (expMark_body a f hf),
    parseMantissa_fixed a f hf]

theorem parseNonneg_digits (cs : List Char) (hne : cs ≠ [])
    (hd : ∀ c ∈ cs, c.isDigit = true) :
    parseNonneg cs = .num (digitsVal cs : ℚ) := by
  unfold parseNonneg
  rw [if_neg (digits_not_infinity cs hne hd)]
  simp only [parseUnsigned, breakAt_none _ _ (fun c hc => expMark_of_digit c (hd c hc)),
    parseMantissa_digits cs hne hd]

theorem body_all_nonws (a f : ℕ) (hf : f < 100) :
    ∀ c ∈ natDigits a ++ '.' :: [digitChar (f / 10), digitChar (f % 10)],
      isJsWhitespace c = false := by
  intro c hc
  rcases List.mem_append.mp hc with hc | hc
  · exact not_ws_of_digit c (natDigits_all_digit a c hc)
  · rcases List.mem_cons.mp hc with rfl | hc
    · decide
    · rcases List.mem_cons.mp hc with rfl | hc
      · exact not_ws_of_digit _ (isDigit_digitChar _ (by omega))
      · rw [List.mem_singleton] at hc
        subst hc
        exact not_ws_of_digit _ (isDigit_digitChar _ (by omega))

theorem natCast_div_add_mod_div (m : ℕ) :
    ((m / 100 : ℕ) : ℚ) + ((m % 100 : ℕ) : ℚ) / 100 = (m : ℚ) / 100 := by
  have h : (100 : ℚ) * ((m / 100 : ℕ) : ℚ) + ((m % 100 : ℕ) : ℚ) = (m : ℚ) := by
    exact_mod_cast congrArg (Nat.cast (R := ℚ)) (Nat.div_add_mod m 100)
  field_simp
  linarith

theorem natAbs_cast_q (z : ℤ) : ((z.natAbs : ℕ) : ℚ) = |((z : ℤ) : ℚ)| := by
  rw [← Int.cast_natCast (R := ℚ), Int.natCast_natAbs, Int.cast_abs]

theorem jsStringToNumber_digitLead (c : Char) (t : List Char)
    (hcd : c.isDigit = true)
    (hws : ∀ d ∈ c :: t, isJsWhitespace d = false) :
    jsStringToNumber (c :: t) = parseNonneg (c :: t) := by
  unfold jsStringToNumber
  rw [jsTrim_eq_self_of _ hws]
  have hplus : ¬((c :: t).head? = some '+') := by
    simp only [List.head?_cons, Option.some.injEq]
    exact digit_ne c '+' hcd (by decide)
  have hminus : ¬((c :: t).head? = some '-') := by
    simp only [List.head?_cons, Option.some.injEq]
    exact digit_ne c '-' hcd (by decide)
  rw [if_neg (by simp), if_neg hplus, if_neg hminus]

theorem jsStringToNumber_minusLead (cs : List Char)
    (hws : ∀ d ∈ cs, isJsWhitespace d = false) :
    jsStringToNumber ('-' :: cs) = (parseNonneg cs).jneg := by
  unfold jsStringToNumber
  rw [jsTrim_eq_self_of]
  · have hplus : ¬(('-' :: cs).head? = some '+') := by
      simp only [List.head?_cons, Option.some.injEq]
      decide
    have hminus : ('-' :: cs).head? = some '-' := by
      simp only [List.head?_cons]
    rw [if_neg (by simp), if_neg hplus, if_pos hminus]
    rfl
  · intro d hd
    rcases List.mem_cons.mp hd with rfl | hd
    · decide
    · exact hws d hd

theorem jsStringToNumber_toFixed2 (q : ℚ) :
    jsStringToNumber (toFixed2Chars q) = .num ((round (q * 100) : ℚ) / 100) := by
  have hflt : (round (q * 100)).natAbs % 100 < 100 := Nat.mod_lt _ (by omega)
  obtain ⟨c, t, hct⟩ :=
    List.exists_cons_of_ne_nil (natDigits_ne_nil ((round (q * 100)).natAbs / 100))
  have hcd : c.isDigit = true :=
    natDigits_all_digit _ c (hct ▸ List.mem_cons_self c t)
  have hbodyval :
      parseNonneg (natDigits ((round (q * 100)).natAbs / 100) ++ '.' ::
          [digitChar ((round (q * 100)).natAbs % 100 / 10),
            digitChar ((round (q * 100)).natAbs % 100 % 10)]) =
        .num (((round (q * 100)).natAbs : ℚ) / 100) := by
    rw [parseNonneg_body _ _ hflt, natCast_div_add_mod_div]
  have hwsbody := body_all_nonws ((round (q * 100)).natAbs / 100)
    ((round (q * 100)).natAbs % 100) hflt
  unfold toFixed2Chars
  by_cases hneg : round (q * 100) < 0
  · rw [if_pos hneg, jsStringToNumber_minusLead _ hwsbody, hbodyval]
    have habs : (((round (q * 100)).natAbs : ℕ) : ℚ) = -((round (q * 100) : ℤ) : ℚ) := by
      rw [natAbs_cast_q, abs_of_nonpos]
      exact_mod_cast le_of_lt hneg
    rw [JSNum.jneg, habs]
    ring_nf
  · have hbody :
        jsStringToNumber (natDigits ((round (q * 100)).natAbs / 100) ++ '.' ::
            [digitChar ((round (q * 100)).natAbs % 100 / 10),
              digitChar ((round (q * 100)).natAbs % 100 % 10)]) =
          .num (((round (q * 100)).natAbs : ℚ) / 100) := by
      rw [hct, List.cons_append]
      rw [jsStringToNumber_digitLead c _ hcd (by rw [← List.cons_append, ← hct]; exact hwsbody)]
      rw [← List.cons_append, ← hct, hbodyval]
    rw [if_neg hneg, hbody]
    have habs : (((round (q * 100)).natAbs : ℕ) : ℚ) = ((round (q * 100) : ℤ) : ℚ) := by
      rw [natAbs_cast_q, abs_of_nonneg]
      exact_mod_cast not_lt.mp hneg
    rw [habs]

theorem jsStringToNumber_intChars (z : ℤ) :
    jsStringToNumber (intChars z) = .num ((z : ℤ) : ℚ) := by
  have hdig := natDigits_all_digit z.natAbs
  have hval : parseNonneg (natDigits z.natAbs) = .num ((z.natAbs : ℕ) : ℚ) := by
    rw [parseNonneg_digits _ (natDigits_ne_nil _) hdig, digitsVal_natDigits]
  have hws : ∀ d ∈ natDigits z.natAbs, isJsWhitespace d = false :=
    fun d hd => not_ws_of_digit d (hdig d hd)
  obtain ⟨c, t, hct⟩ := List.exists_cons_of_ne_nil (natDigits_ne_nil z.natAbs)
  have hcd : c.isDigit = true := hdig c (hct ▸ List.mem_cons_self c t)
  unfold intChars
  by_cases hneg : z < 0
  · rw [if_pos hneg, jsStringToNumber_minusLead _ hws, hval]
    have habs : ((z.natAbs : ℕ) : ℚ) = -((z : ℤ) : ℚ) := by
      rw [natAbs_cast_q, abs_of_nonpos]
      exact_mod_cast le_of_lt hneg
    rw [JSNum.jneg, habs]
    ring_nf
  · rw [if_neg hneg, hct, jsStringToNumber_digitLead c t hcd (hct ▸ hws), ← hct, hval]
    have habs : ((z.natAbs : ℕ) : ℚ) = ((z : ℤ) : ℚ) := by
      rw [natAbs_cast_q, abs_of_nonneg]
      exact_mod_cast not_lt.mp hneg
    rw [habs]

/-! ## Helper lemmas: the orientation string splits back into its fields -/

theorem body_not_comma (a f : ℕ) (hf : f < 100) :
    (',' : Char) ∉ natDigits a ++ '.' :: [digitChar (f / 10), digitChar (f % 10)] := by
  intro hm
  rcases List.mem_append.mp hm with hm | hm
  · exact absurd (natDigits_all_digit a ',' hm) (by decide)
  · rcases List.mem_cons.mp hm with h | hm
    · exact absurd h (by decide)
    · rcases List.mem_cons.mp hm with h | hm
      · have hd := isDigit_digitChar (f / 10) (by omega)
        rw [← h] at hd
        exact absurd hd (by decide)
      · rw [List.mem_singleton] at hm
        have hd := isDigit_digitChar (f % 10) (by omega)
        rw [← hm] at hd
        exact absurd hd (by decide)

theorem toFixed2Chars_no_comma (q : ℚ) : (',' : Char) ∉ toFixed2Chars q := by
  have hb := body_not_comma ((round (q * 100)).natAbs / 100)
    ((round (q * 100)).natAbs % 100) (Nat.mod_lt _ (by omega))
  unfold toFixed2Chars
  by_cases hneg : round (q * 100) < 0
  · rw [if_pos hneg]
    intro hm
    rcases List.mem_cons.mp hm with h | hm
    · exact absurd h (by decide)
    · exact hb hm
  · rw [if_neg hneg]
    exact hb

theorem intChars_no_comma (z : ℤ) : (',' : Char) ∉ intChars z := by
  have hb : (',' : Char) ∉ natDigits z.natAbs :=
    fun hm => absurd (natDigits_all_digit z.natAbs ',' hm) (by decide)
  unfold intChars
  by_cases hneg : z < 0
  · rw [if_pos hneg]
    intro hm
    rcases List.mem_cons.mp hm with h | hm
    · exact absurd h (by decide)
    · exact hb hm
  · rw [if_neg hneg]
    exact hb

theorem splitComma_orientationGet (g : Globe) :
    splitSep ',' (orientationGet g) =
      [toFixed2Chars (-g.projection.rotate.1),
        toFixed2Chars (-g.projection.rotate.2.1),
        intChars (round g.projection.scale)] := by
  unfold orientationGet
  rw [splitSep_append _ _ _ (toFixed2Chars_no_comma _),
    splitSep_append _ _ _ (toFixed2Chars_no_comma _),
    splitSep_not_mem _ _ (intChars_no_comma _)]

/-! ## Helper lemmas: JSNum order facts for bounds clamping -/

theorem ensureNumber_ne_nan (x fb : JSNum) (h : fb ≠ .nan) :
    ensureNumber x fb ≠ .nan := by
  cases x <;> simp [ensureNumber, JSNum.isFiniteNum, h]

theorem jfloor_ne_nan (x : JSNum) (h : x ≠ .nan) : x.jfloor ≠ .nan := by
  cases x <;> first
    | exact absurd rfl h
    | simp [JSNum.jfloor]

theorem jceil_ne_nan (x : JSNum) (h : x ≠ .nan) : x.jceil ≠ .nan := by
  cases x <;> first
    | exact absurd rfl h
    | simp [JSNum.jceil]

theorem jle_zero_jmax_zero (a : JSNum) (h : a ≠ .nan) :
    (JSNum.num 0).jle (a.jmax (.num 0)) = true := by
  cases a with
  | num q =>
    simp only [JSNum.jmax, JSNum.jle, decide_eq_true_eq]
    exact le_max_right q 0
  | posInf => rfl
  | negInf =>
    simp only [JSNum.jmax, JSNum.jle, decide_eq_true_eq]
    exact le_refl 0
  | nan => exact absurd rfl h

theorem jle_jmin_self (a : JSNum) (t : ℚ) (h : a ≠ .nan) :
    (a.jmin (.num t)).jle (.num t) = true := by
  cases a with
  | num q =>
    simp only [JSNum.jmin, JSNum.jle, decide_eq_true_eq]
    exact min_le_right q t
  | posInf =>
    simp only [JSNum.jmin, JSNum.jle, decide_eq_true_eq]
    exact le_refl t
  | negInf => rfl
  | nan => exact absurd rfl h

/-! ## Helper lemmas: timezone rotation evaluations -/

theorem currentPosition_zero : currentPosition 0 = (0, 0) := by
  unfold currentPosition floorMod
  norm_num

theorem currentPosition_four : currentPosition 4 = (1, 0) := by
  unfold currentPosition floorMod
  have h : ⌊(4 : ℚ) / 4 / 360⌋ = 0 := by
    rw [Int.floor_eq_zero_iff]
    constructor <;> norm_num
  rw [h]
  norm_num

/-! ## Helper lemmas: the relief cache as a keyed map -/

theorem cacheLookup_insert_self (k : ReliefKey) (v : ImageData)
    (c : List (ReliefKey × ImageData)) :
    cacheLookup k (cacheInsert k v c) = some v := by
  unfold cacheInsert cacheLookup
  rw [if_pos rfl]

theorem cacheLookup_remove_ne (k k' : ReliefKey) (c : List (ReliefKey × ImageData))
    (h : k' ≠ k) : cacheLookup k' (cacheRemove k c) = cacheLookup k' c := by
  induction c with
  | nil => rfl
  | cons p rest ih =>
    by_cases hp : p.1 = k
    · rw [cacheRemove, if_pos hp, ih, cacheLookup,
        if_neg (fun he : p.1 = k' => h (he ▸ hp))]
    · rw [cacheRemove, if_neg hp]
      by_cases hpk : p.1 = k'
      · rw [cacheLookup, if_pos hpk, cacheLookup, if_pos hpk]
      · rw [cacheLookup, if_neg hpk, cacheLookup, if_neg hpk, ih]

theorem cacheLookup_insert_ne (k k' : ReliefKey) (v : ImageData)
    (c : List (ReliefKey × ImageData)) (h : k' ≠ k) :
    cacheLookup k' (cacheInsert k v c) = cacheLookup k' c := by
  rw [cacheInsert, cacheLookup, if_neg (fun he : k = k' => h he.symm)]
  exact cacheLookup_remove_ne k k' c h

/-! ## Helper lemmas: pixel addressing in the sweeps -/

theorem quad_index (p c : ℕ) (hc : c < 4) :
    (p * 4 + c) / 4 = p ∧ (p * 4 + c) % 4 = c := by omega

theorem row_index (x y W : ℕ) (hx : x < W) :
    (y * W + x) % W = x ∧ (y * W + x) / W = y := by
  constructor
  · rw [Nat.add_comm, Nat.add_mul_mod_self_right, Nat.mod_eq_of_lt hx]
  · rw [Nat.add_comm, Nat.add_mul_div_right _ _ (by omega : 0 < W),
      Nat.div_eq_of_lt hx, Nat.zero_add]

theorem u8store_byte (n : ℕ) (h : n ≤ 255) : u8store (n : ℤ) = n := by
  unfold u8store
  rw [max_eq_left (by positivity), min_eq_left (by exact_mod_cast h)]
  simp

theorem round_alpha_bounds (a : ℕ) (h : a ≤ 255) :
    0 ≤ round ((a : ℚ) * (7 / 10)) ∧ round ((a : ℚ) * (7 / 10)) ≤ 255 := by
  constructor
  · rw [round_eq]
    exact Int.le_floor.mpr (by positivity)
  · rw [round_eq]
    have ha : (a : ℚ) ≤ 255 := by exact_mod_cast h
    have h1 : (a : ℚ) * (7 / 10) + 1 / 2 ≤ ((255 : ℤ) : ℚ) := by
      push_cast
      linarith
    calc ⌊(a : ℚ) * (7 / 10) + 1 / 2⌋ ≤ ⌊((255 : ℤ) : ℚ)⌋ := Int.floor_mono h1
      _ = 255 := Int.floor_intCast 255

theorem u8store_round_alpha (a : ℕ) (h : a ≤ 255) :
    (u8store (round ((a : ℚ) * (7 / 10))) : ℤ) = round ((a : ℚ) * (7 / 10)) := by
  obtain ⟨h0, h255⟩ := round_alpha_bounds a h
  unfold u8store
  rw [max_eq_left h0, min_eq_left h255]
  exact Int.toNat_of_nonneg h0

/-! ## Helper lemmas: the two sweeps evaluated at a pixel -/

theorem reliefSample_eq (raster : Raster) (invert : ℚ × ℚ → Option (ℚ × ℚ))
    (sx sy lon lat : ℚ) (hinv : invert (sx, sy) = some (lon, lat))
    (hix0 : 0 ≤ reliefIx raster lon) (hixW : reliefIx raster lon < (raster.width : ℤ))
    (hiy0 : 0 ≤ reliefIy raster lat) (hiyH : reliefIy raster lat < (raster.height : ℤ)) :
    reliefSample raster invert sx sy =
      some (u8store (raster.data
          (((reliefIy raster lat).toNat * raster.width + (reliefIx raster lon).toNat) * 4)),
        u8store (raster.data
          (((reliefIy raster lat).toNat * raster.width + (reliefIx raster lon).toNat) * 4 + 1)),
        u8store (raster.data
          (((reliefIy raster lat).toNat * raster.width + (reliefIx raster lon).toNat) * 4 + 2)),
        u8store (round ((raster.data
          (((reliefIy raster lat).toNat * raster.width + (reliefIx raster lon).toNat) * 4 + 3) : ℚ)
            * (7 / 10)))) := by
  have hcond : ¬(reliefIx raster lon < 0 ∨ (raster.width : ℤ) ≤ reliefIx raster lon ∨
      reliefIy raster lat < 0 ∨ (raster.height : ℤ) ≤ reliefIy raster lat) := by
    push_neg
    exact ⟨hix0, hixW, hiy0, hiyH⟩
  simp only [reliefSample, hinv]
  rw [if_neg hcond]

theorem fullSweep_data_some (raster : Raster) (invert : ℚ × ℚ → Option (ℚ × ℚ))
    (view : View) (x y : ℕ) (px : ℕ × ℕ × ℕ × ℕ)
    (hx : x < view.width) (hy : y < view.height)
    (hs : reliefSample raster invert (x : ℚ) (y : ℚ) = some px) :
    (fullSweep raster invert view).data ((y * view.width + x) * 4) = px.1 ∧
    (fullSweep raster invert view).data ((y * view.width + x) * 4 + 1) = px.2.1 ∧
    (fullSweep raster invert view).data ((y * view.width + x) * 4 + 2) = px.2.2.1 ∧
    (fullSweep raster invert view).data ((y * view.width + x) * 4 + 3) = px.2.2.2 := by
  have hW : ¬(view.width = 0) := by omega
  obtain ⟨hrm, hrd⟩ := row_index x y view.width hx
  have h0 := quad_index (y * view.width + x) 0 (by omega)
  rw [Nat.add_zero] at h0
  obtain ⟨hdiv0, hmod0⟩ := h0
  obtain ⟨hdiv1, hmod1⟩ := quad_index (y * view.width + x) 1 (by omega)
  obtain ⟨hdiv2, hmod2⟩ := quad_index (y * view.width + x) 2 (by omega)
  obtain ⟨hdiv3, hmod3⟩ := quad_index (y * view.width + x) 3 (by omega)
  refine ⟨?_, ?_, ?_, ?_⟩
  · unfold fullSweep
    simp only [hdiv0, hmod0, hrm, hrd, if_neg hW, if_pos hy, hs]
  · unfold fullSweep
    simp only [hdiv1, hmod1, hrm, hrd, if_neg hW, if_pos hy, hs]
  · unfold fullSweep
    simp only [hdiv2, hmod2, hrm, hrd, if_neg hW, if_pos hy, hs]
  · unfold fullSweep
    simp only [hdiv3, hmod3, hrm, hrd, if_neg hW, if_pos hy, hs]

theorem fastSweep_data_some (raster : Raster) (invert : ℚ × ℚ → Option (ℚ × ℚ))
    (view : View) (fastW fastH fx fy : ℕ) (px : ℕ × ℕ × ℕ × ℕ)
    (hx : fx < fastW) (hy : fy < fastH)
    (hs : reliefSample raster invert ((fx : ℚ) / (fastW : ℚ) * (view.width : ℚ))
        ((fy : ℚ) / (fastH : ℚ) * (view.height : ℚ)) = some px) :
    (fastSweep raster invert view fastW fastH).data ((fy * fastW + fx) * 4) = px.1 ∧
    (fastSweep raster invert view fastW fastH).data ((fy * fastW + fx) * 4 + 1) =
      px.2.1 ∧
    (fastSweep raster invert view fastW fastH).data ((fy * fastW + fx) * 4 + 2) =
      px.2.2.1 ∧
    (fastSweep raster invert view fastW fastH).data ((fy * fastW + fx) * 4 + 3) =
      px.2.2.2 := by
  have hW : ¬(fastW = 0) := by omega
  obtain ⟨hrm, hrd⟩ := row_index fx fy fastW hx
  have h0 := quad_index (fy * fastW + fx) 0 (by omega)
  rw [Nat.add_zero] at h0
  obtain ⟨hdiv0, hmod0⟩ := h0
  obtain ⟨hdiv1, hmod1⟩ := quad_index (fy * fastW + fx) 1 (by omega)
  obtain ⟨hdiv2, hmod2⟩ := quad_index (fy * fastW + fx) 2 (by omega)
  obtain ⟨hdiv3, hmod3⟩ := quad_index (fy * fastW + fx) 3 (by omega)
  refine ⟨?_, ?_, ?_, ?_⟩
  · unfold fastSweep
    simp only [hdiv0, hmod0, hrm, hrd, if_neg hW, if_pos hy, hs]
  · unfold fastSweep
    simp only [hdiv1, hmod1, hrm, hrd, if_neg hW, if_pos hy, hs]
  · unfold fastSweep
    simp only [hdiv2, hmod2, hrm, hrd, if_neg hW, if_pos hy, hs]
  · unfold fastSweep
    simp only [hdiv3, hmod3, hrm, hrd, if_neg hW, if_pos hy, hs]

/-! ## Claim theorems -/

/-- C2 (counterexample): the claim asserts `width = xMax - x + 1 ≥ 0` for
every bounds pair, but for the bounds `[[0, 0], [-5, -5]]` in a 5×5 view
the clamped rectangle has `x = 0`, `xMax = -5` and hence `width = -4 < 0`:
the claimed inequality `0 ≤ width` is false at this input. -/
theorem clampedBounds_negative_width :
    (JSNum.num 0).jle
      ((clampedBounds ((.num 0, .num 0), (.num (-5), .num (-5))) ⟨5, 5⟩).width) =
      false := by
  have hceil : ⌈(-5 : ℚ)⌉ = -5 := by
    rw [show ((-5 : ℚ)) = ((-5 : ℤ) : ℚ) by norm_num, Int.ceil_intCast]
  norm_num [clampedBounds, ensureNumber, JSNum.isFiniteNum, JSNum.jfloor,
    JSNum.jceil, JSNum.jmax, JSNum.jmin, JSNum.jsub, JSNum.jadd, JSNum.jneg,
    JSNum.jle, min_def, max_def, hceil]

/-- C2 (amended): for every bounds pair (components possibly negative,
non-finite, or exceeding the view) and every view, the rectangle returned
by `clampedBounds` satisfies `x ≥ 0`, `xMax ≤ width-1`,
`width = xMax - x + 1` (computed in JavaScript arithmetic, and possibly
negative when the bounds lie outside the view), and likewise for `y`. -/
theorem clampedBounds_clamped (b : (JSNum × JSNum) × (JSNum × JSNum)) (v : View) :
    (JSNum.num 0).jle (clampedBounds b v).x = true ∧
    ((clampedBounds b v).xMax).jle (.num ((v.width : ℚ) - 1)) = true ∧
    (clampedBounds b v).width =
      ((clampedBounds b v).xMax.jsub (clampedBounds b v).x).jadd (.num 1) ∧
    (JSNum.num 0).jle (clampedBounds b v).y = true ∧
    ((clampedBounds b v).yMax).jle (.num ((v.height : ℚ) - 1)) = true ∧
    (clampedBounds b v).height =
      ((clampedBounds b v).yMax.jsub (clampedBounds b v).y).jadd (.num 1) := by
  refine ⟨?_, ?_, rfl, ?_, ?_, rfl⟩
  · exact jle_zero_jmax_zero _
      (jfloor_ne_nan _ (ensureNumber_ne_nan _ _ (by simp)))
  · exact jle_jmin_self _ _
      (jceil_ne_nan _ (ensureNumber_ne_nan _ _ (by simp)))
  · exact jle_zero_jmax_zero _
      (jfloor_ne_nan _ (ensureNumber_ne_nan _ _ (by simp)))
  · exact jle_jmin_self _ _
      (jceil_ne_nan _ (ensureNumber_ne_nan _ _ (by simp)))

/-- C3 (counterexample): the claim says exactly seven of the eight registry
constructors derive their default rotation from the timezone offset, i.e.
all but one.  But `atlantis` (constant `[30, -45, 90]`) and `waterman`
(constant `[20, 0, 0]`) both fail to, so not even "all but one" holds. -/
theorem timezone_rotation_not_seven :
    ¬ ∃ exception : GlobeName,
        ∀ c : GlobeName, c ≠ exception → TimezoneDerived c := by
  rintro ⟨e, he⟩
  have hat : ¬ TimezoneDerived .atlantis := by
    intro h
    have h0 := h 0
    rw [currentPosition_zero] at h0
    norm_num [defaultRotation, rotOfPair, Prod.ext_iff] at h0
  have hwa : ¬ TimezoneDerived .waterman := by
    intro h
    have h0 := h 0
    rw [currentPosition_zero] at h0
    norm_num [defaultRotation, rotOfPair, Prod.ext_iff] at h0
  by_cases he1 : GlobeName.atlantis = e
  · exact hwa (he .waterman (by rw [← he1]; decide))
  · exact hat (he .atlantis he1)

/-- C3 (amended): exactly three of the eight registry constructors —
`conic_equidistant`, `equirectangular` and `orthographic` — derive their
default rotation from the user's timezone offset via
`floorMod(timezoneOffsetMinutes / 4, 360)`; the other five configure
constant rotations (or, for `winkel3`, leave the d3 default). -/
theorem timezone_rotation_exactly_three (c : GlobeName) :
    TimezoneDerived c ↔
      (c = .conic_equidistant ∨ c = .equirectangular ∨ c = .orthographic) := by
  cases c with
  | conic_equidistant => exact ⟨fun _ => Or.inl rfl, fun _ tz => rfl⟩
  | equirectangular => exact ⟨fun _ => Or.inr (Or.inl rfl), fun _ tz => rfl⟩
  | orthographic => exact ⟨fun _ => Or.inr (Or.inr rfl), fun _ tz => rfl⟩
  | atlantis =>
    constructor
    · intro h
      have h0 := h 0
      rw [currentPosition_zero] at h0
      norm_num [defaultRotation, rotOfPair, Prod.ext_iff] at h0
    · rintro (h | h | h) <;> exact absurd h (by decide)
  | azimuthal_equidistant =>
    constructor
    · intro h
      have h0 := h 0
      rw [currentPosition_zero] at h0
      norm_num [defaultRotation, rotOfPair, Prod.ext_iff] at h0
    · rintro (h | h | h) <;> exact absurd h (by decide)
  | stereographic =>
    constructor
    · intro h
      have h0 := h 0
      rw [currentPosition_zero] at h0
      norm_num [defaultRotation, rotOfPair, Prod.ext_iff] at h0
    · rintro (h | h | h) <;> exact absurd h (by decide)
  | waterman =>
    constructor
    · intro h
      have h0 := h 0
      rw [currentPosition_zero] at h0
      norm_num [defaultRotation, rotOfPair, Prod.ext_iff] at h0
    · rintro (h | h | h) <;> exact absurd h (by decide)
  | winkel3 =>
    constructor
    · intro h
      have h4 := h 4
      rw [currentPosition_four] at h4
      norm_num [defaultRotation, rotOfPair, Prod.ext_iff] at h4
    · rintro (h | h | h) <;> exact absurd h (by decide)

/-- C6 (counterexample): the claim says a second `end()` re-applies a
division and leaves the precision different from the original.  In fact
`end()` writes the recorded original precision, so after two `end()` calls
on a session built from a projection with precision `1/10` the precision
is exactly the original `1/10` — not different from it. -/
theorem manipulator_double_end_cex :
    (manipEnd (manipulator sampleProj (0, 0) 300).1
        (manipEnd (manipulator sampleProj (0, 0) 300).1
          (manipulator sampleProj (0, 0) 300).2)).precision =
      sampleProj.precision := rfl

/-- C6 (amended): a Manipulator session records the projection's precision
at construction and sets it to 10 times that value; `end()` restores the
recorded original precision, and calling `end()` a second time is harmless:
it re-applies the same restoration, leaving the precision equal to the
original. -/
theorem manipulator_end_restores (p : ProjState) (sm : ℚ × ℚ) (ss : ℚ) :
    ((manipulator p sm ss).2).precision = p.precision * 10 ∧
    (manipEnd (manipulator p sm ss).1 (manipulator p sm ss).2).precision =
      p.precision ∧
    manipEnd (manipulator p sm ss).1
        (manipEnd (manipulator p sm ss).1 (manipulator p sm ss).2) =
      manipEnd (manipulator p sm ss).1 (manipulator p sm ss).2 :=
  ⟨rfl, rfl, rfl⟩

/-- C8 (confirmed): `fit(view)` builds a fresh default projection and never
reads the Globe's current projection, so its value is unchanged by any
sequence of `orientation()` mutations (which only replace the `projection`
field). -/
theorem fit_rotation_independent (g : Globe) (ms : List (List Char × View))
    (view : View) :
    fit (ms.foldl (fun gl m => orientationSet gl m.1 m.2) g) view = fit g view := by
  induction ms generalizing g with
  | nil => rfl
  | cons m rest ih =>
    rw [List.foldl_cons, ih]
    rfl

/-- C10 (confirmed): within a session, `move` is absolute with respect to
the session start: applying `move(mouse, scale)` twice leaves exactly the
state of applying it once, and `move(startMouse, scale)` restores the first
two rotation components recorded at construction (for a nonzero start
scale, as guaranteed by the scale extent). -/
theorem manipulator_move_absolute (p : ProjState) (sm : ℚ × ℚ) (ss : ℚ)
    (mouse : ℚ × ℚ) (scale : ℚ) (h : ss ≠ 0) :
    (∀ q : ProjState,
      manipMove (manipulator p sm ss).1 (some mouse) scale
          (manipMove (manipulator p sm ss).1 (some mouse) scale q) =
        manipMove (manipulator p sm ss).1 (some mouse) scale q) ∧
    (manipMove (manipulator p sm ss).1 (some sm) scale
        (manipulator p sm ss).2).rotate.1 = p.rotate.1 ∧
    (manipMove (manipulator p sm ss).1 (some sm) scale
        (manipulator p sm ss).2).rotate.2.1 = p.rotate.2.1 := by
  have hsens : (60 : ℚ) / ss ≠ 0 := div_ne_zero (by norm_num) h
  refine ⟨fun q => rfl, ?_, ?_⟩
  · show (sm.1 - sm.1 + p.rotate.1 / (60 / ss)) * (60 / ss) = p.rotate.1
    rw [sub_self, zero_add, div_mul_cancel₀ _ hsens]
  · show -(sm.2 - sm.2 + -p.rotate.2.1 / (60 / ss)) * (60 / ss) = p.rotate.2.1
    rw [sub_self, zero_add]
    field_simp

/-- C10 (witness): the round trip at a concrete session. -/
theorem manipulator_move_absolute_witness :
    (manipMove (manipulator sampleProj (10, 20) 300).1 (some (10, 20)) 400
        (manipulator sampleProj (10, 20) 300).2).rotate.1 =
      sampleProj.rotate.1 ∧
    (manipMove (manipulator sampleProj (10, 20) 300).1 (some (10, 20)) 400
        (manipulator sampleProj (10, 20) 300).2).rotate.2.1 =
      sampleProj.rotate.2.1 :=
  ⟨(manipulator_move_absolute sampleProj (10, 20) 300 (10, 20) 400
      (by norm_num)).2.1,
    (manipulator_move_absolute sampleProj (10, 20) 300 (10, 20) 400
      (by norm_num)).2.2⟩

/-- C5 (counterexample): the claim asserts that for *every* string with a
failing longitude, latitude, or scale field, the rotation falls back to the
variant's default.  For `"0,0,abc"` the scale field fails but longitude and
latitude parse, so the rotation is set to `[-0, -0, roll] = (0, 0, 90)` —
not the sample variant's default rotation `(30, -45, 90)`. -/
theorem orientation_scalefail_keeps_rotation :
    (orientationSet sampleGlobe scaleFailString sampleView).projection.rotate ≠
      (sampleGlobe.newProjection sampleView).rotate := by
  decide

/-- C5 (amended): the orientation setter never raises and always yields a
valid projection state, with fallback applied per field: if the longitude
or latitude field fails to parse as a finite number the rotation falls back
to the variant's default rotation for the current view; if the scale field
fails the scale falls back to the fit-to-view scale; the translate is
always recentered. -/
theorem orientation_fallback (g : Globe) (cs : List Char) (view : View) :
    (((jsToNumber ((splitSep ',' cs).get? 0)).isFiniteNum = false ∨
        (jsToNumber ((splitSep ',' cs).get? 1)).isFiniteNum = false) →
      (orientationSet g cs view).projection.rotate =
        (g.newProjection view).rotate) ∧
    ((jsToNumber ((splitSep ',' cs).get? 2)).isFiniteNum = false →
      (orientationSet g cs view).projection.scale = fit g view) ∧
    (orientationSet g cs view).projection.translate = g.center view := by
  refine ⟨?_, ?_, rfl⟩
  · intro h
    cases hl : jsToNumber ((splitSep ',' cs).get? 0) with
    | num a =>
      cases hp : jsToNumber ((splitSep ',' cs).get? 1) with
      | num b =>
        rw [hl, hp] at h
        simp [JSNum.isFiniteNum] at h
      | posInf => simp only [orientationSet, hl, hp]
      | negInf => simp only [orientationSet, hl, hp]
      | nan => simp only [orientationSet, hl, hp]
    | posInf => simp only [orientationSet, hl]
    | negInf => simp only [orientationSet, hl]
    | nan => simp only [orientationSet, hl]
  · intro h
    cases hs : jsToNumber ((splitSep ',' cs).get? 2) with
    | num s =>
      rw [hs] at h
      simp [JSNum.isFiniteNum] at h
    | posInf => simp only [orientationSet, hs]
    | negInf => simp only [orientationSet, hs]
    | nan => simp only [orientationSet, hs]

/-- C5 (witness): decoding `"abc,def,ghi"` falls back to the default
rotation and the fit scale. -/
theorem orientation_fallback_witness :
    (orientationSet sampleGlobe allFailString sampleView).projection.rotate =
      (sampleGlobe.newProjection sampleView).rotate ∧
    (orientationSet sampleGlobe allFailString sampleView).projection.scale =
      fit sampleGlobe sampleView :=
  ⟨(orientation_fallback sampleGlobe allFailString sampleView).1
      (Or.inl (by decide)),
    (orientation_fallback sampleGlobe allFailString sampleView).2.1 (by decide)⟩

/-- C9 (confirmed): with the low-resolution flag set and that tier loaded,
`drawRelief` neither reads nor writes the cache — the whole relief state is
returned unchanged — and the output is the downsampled per-pixel sweep,
regardless of the cache contents. -/
theorem relief_lowres_no_cache (s : ReliefState) (view : View) (proj : ProjObj)
    (raster : Raster) (hLo : s.useReliefLo = true)
    (hloaded : s.reliefLo.loaded = true) (hdata : s.reliefLo.data = some raster) :
    (drawRelief s view proj).1 = s ∧
    (drawRelief s view proj).2 =
      .fast (fastSweep raster proj.invert view s.reliefFastW s.reliefFastH) := by
  unfold drawRelief
  rw [hLo]
  simp only [if_true]
  rw [hloaded, hdata]
  simp

/-- C9 (witness): the low-resolution render at a concrete state leaves the
state untouched and paints the fast sweep. -/
theorem relief_lowres_no_cache_witness :
    (drawRelief sampleReliefStateLo tinyView sampleProjObjA).1 =
      sampleReliefStateLo ∧
    (drawRelief sampleReliefStateLo tinyView sampleProjObjA).2 =
      .fast (fastSweep sampleRaster sampleProjObjA.invert tinyView
        sampleReliefStateLo.reliefFastW sampleReliefStateLo.reliefFastH) :=
  relief_lowres_no_cache sampleReliefStateLo tinyView sampleProjObjA sampleRaster
    rfl rfl rfl

/-- C1 (counterexample): the claim says the cache never holds more than one
entry.  Starting from an empty cache, two full-fidelity renders under two
different rotations store one entry each under their own keys, so the cache
then holds two entries. -/
theorem reliefCache_multiple_entries :
    ¬ ((drawRelief (drawRelief sampleReliefState tinyView sampleProjObjA).1
        tinyView sampleProjObjB).1.reliefCache.length ≤ 1) := by
  decide

/-- C1 (amended): the relief cache is a map keyed by projection state and
view size.  A full-fidelity render leaves the cache with an entry at the
current key — either the pre-existing dimension-matching entry it blitted,
or the freshly composited buffer, which overwrites only a previous entry
with the same key — and every entry at any other key is exactly as before,
so successive renders with differing projection states accumulate one entry
per distinct state. -/
theorem reliefCache_overwrites_per_key (s : ReliefState) (view : View)
    (proj : ProjObj) (raster : Raster) (hHi : s.useReliefLo = false)
    (hloaded : s.reliefHi.loaded = true) (hdata : s.reliefHi.data = some raster) :
    (cacheLookup (getReliefCacheKey proj view)
        (drawRelief s view proj).1.reliefCache).isSome = true ∧
    ∀ k : ReliefKey, k ≠ getReliefCacheKey proj view →
      cacheLookup k (drawRelief s view proj).1.reliefCache =
        cacheLookup k s.reliefCache := by
  unfold drawRelief
  rw [hHi]
  simp only [Bool.false_eq_true, if_false]
  rw [hloaded, hdata]
  cases hlk : cacheLookup (getReliefCacheKey proj view) s.reliefCache with
  | none =>
    simp only [hlk, Bool.false_eq_true, if_false]
    constructor
    · rw [cacheLookup_insert_self]
      rfl
    · intro k hk
      exact cacheLookup_insert_ne _ _ _ _ hk
  | some cached =>
    by_cases hdim : cached.width = view.width ∧ cached.height = view.height
    · simp only [hlk]
      rw [if_pos hdim]
      constructor
      · rw [hlk]
        rfl
      · intro k hk
        rfl
    · simp only [hlk]
      rw [if_neg hdim]
      simp only [Bool.false_eq_true, if_false]
      constructor
      · rw [cacheLookup_insert_self]
        rfl
      · intro k hk
        exact cacheLookup_insert_ne _ _ _ _ hk

/-- C1 (witness): a full-fidelity render from the empty cache leaves an
entry at the current key. -/
theorem reliefCache_overwrites_per_key_witness :
    (cacheLookup (getReliefCacheKey sampleProjObjA tinyView)
        (drawRelief sampleReliefState tinyView sampleProjObjA).1.reliefCache).isSome
      = true :=
  (reliefCache_overwrites_per_key sampleReliefState tinyView sampleProjObjA
    sampleRaster rfl rfl rfl).1

theorem roundtrip_component (r : ℚ) :
    |(-(((round (-r * 100) : ℤ) : ℚ) / 100)) - r| ≤ 1 / 200 := by
  have habs : |(-r * 100) - ((round (-r * 100) : ℤ) : ℚ)| ≤ 1 / 2 :=
    abs_sub_round (-r * 100)
  have hrw : (-(((round (-r * 100) : ℤ) : ℚ) / 100)) - r =
      ((-r * 100) - ((round (-r * 100) : ℤ) : ℚ)) / 100 := by ring
  rw [hrw, abs_div]
  rw [show |(100 : ℚ)| = 100 by norm_num]
  linarith

/-- C4 (confirmed): for every rotation within valid longitude/latitude
ranges and every scale, feeding the getter's string back into the setter
yields a scale equal to `clamp(round(scale), scaleExtent)` and recovers the
first two rotation components to within half a hundredth (two decimal
places). -/
theorem orientation_roundtrip (g : Globe) (view : View)
    (h1 : |g.projection.rotate.1| ≤ 180) (h2 : |g.projection.rotate.2.1| ≤ 90) :
    (orientationSet g (orientationGet g) view).projection.scale =
      clamp ((round g.projection.scale : ℤ) : ℚ) g.scaleExtent.1 g.scaleExtent.2 ∧
    |(orientationSet g (orientationGet g) view).projection.rotate.1 -
        g.projection.rotate.1| ≤ 1 / 200 ∧
    |(orientationSet g (orientationGet g) view).projection.rotate.2.1 -
        g.projection.rotate.2.1| ≤ 1 / 200 := by
  have hfields :
      (orientationSet g (orientationGet g) view).projection.rotate =
        (-(((round (-g.projection.rotate.1 * 100) : ℤ) : ℚ) / 100),
          -(((round (-g.projection.rotate.2.1 * 100) : ℤ) : ℚ) / 100),
          g.projection.rotate.2.2) ∧
      (orientationSet g (orientationGet g) view).projection.scale =
        clamp ((round g.projection.scale : ℤ) : ℚ) g.scaleExtent.1
          g.scaleExtent.2 := by
    unfold orientationSet
    rw [splitComma_orientationGet g]
    simp only [List.get?_cons_zero, List.get?_cons_succ, jsToNumber,
      jsStringToNumber_toFixed2, jsStringToNumber_intChars]
    constructor
    · first
      | rfl
      | trivial
    · first
      | rfl
      | trivial
  refine ⟨hfields.2, ?_, ?_⟩
  · rw [hfields.1]
    exact roundtrip_component g.projection.rotate.1
  · rw [hfields.1]
    exact roundtrip_component g.projection.rotate.2.1

/-- C4 (witness): the round trip at the concrete sample globe. -/
theorem orientation_roundtrip_witness :
    (orientationSet sampleGlobe (orientationGet sampleGlobe)
        sampleView).projection.scale =
      clamp ((round sampleGlobe.projection.scale : ℤ) : ℚ)
        sampleGlobe.scaleExtent.1 sampleGlobe.scaleExtent.2 ∧
    |(orientationSet sampleGlobe (orientationGet sampleGlobe)
        sampleView).projection.rotate.1 - sampleGlobe.projection.rotate.1| ≤
      1 / 200 ∧
    |(orientationSet sampleGlobe (orientationGet sampleGlobe)
        sampleView).projection.rotate.2.1 - sampleGlobe.projection.rotate.2.1| ≤
      1 / 200 :=
  orientation_roundtrip sampleGlobe sampleView
    (by norm_num [sampleGlobe, sampleProj])
    (by norm_num [sampleGlobe, sampleProj])

theorem round_opaque_alpha : round ((255 : ℚ) * (7 / 10)) = 179 := by
  rw [round_eq, show (255 : ℚ) * (7 / 10) + 1 / 2 = ((179 : ℤ) : ℚ) by norm_num,
    Int.floor_intCast]

/-- C7 (confirmed): in both the high- and low-fidelity sweeps, every output
pixel whose inverse projection is valid and whose raster lookup is in range
receives the source pixel's RGB unchanged and an alpha of
`round(sourceAlpha * 0.7)`; in particular an opaque source pixel
(alpha 255) composites to output alpha 179. -/
theorem relief_alpha_attenuation (raster : Raster)
    (invert : ℚ × ℚ → Option (ℚ × ℚ)) (view : View) (fastW fastH x y fx fy : ℕ)
    (lon lat lon2 lat2 : ℚ)
    (hbytes : ∀ i, raster.data i ≤ 255)
    (hx : x < view.width) (hy : y < view.height)
    (hinv : invert ((x : ℚ), (y : ℚ)) = some (lon, lat))
    (hix0 : 0 ≤ reliefIx raster lon)
    (hixW : reliefIx raster lon < (raster.width : ℤ))
    (hiy0 : 0 ≤ reliefIy raster lat)
    (hiyH : reliefIy raster lat < (raster.height : ℤ))
    (hfx : fx < fastW) (hfy : fy < fastH)
    (hinv2 : invert ((fx : ℚ) / (fastW : ℚ) * (view.width : ℚ),
        (fy : ℚ) / (fastH : ℚ) * (view.height : ℚ)) = some (lon2, lat2))
    (hix0q : 0 ≤ reliefIx raster lon2)
    (hixWq : reliefIx raster lon2 < (raster.width : ℤ))
    (hiy0q : 0 ≤ reliefIy raster lat2)
    (hiyHq : reliefIy raster lat2 < (raster.height : ℤ)) :
    ((fullSweep raster invert view).data ((y * view.width + x) * 4) =
        raster.data
          (((reliefIy raster lat).toNat * raster.width +
            (reliefIx raster lon).toNat) * 4) ∧
      (fullSweep raster invert view).data ((y * view.width + x) * 4 + 1) =
        raster.data
          (((reliefIy raster lat).toNat * raster.width +
            (reliefIx raster lon).toNat) * 4 + 1) ∧
      (fullSweep raster invert view).data ((y * view.width + x) * 4 + 2) =
        raster.data
          (((reliefIy raster lat).toNat * raster.width +
            (reliefIx raster lon).toNat) * 4 + 2) ∧
      ((fullSweep raster invert view).data ((y * view.width + x) * 4 + 3) : ℤ) =
        round ((raster.data
          (((reliefIy raster lat).toNat * raster.width +
            (reliefIx raster lon).toNat) * 4 + 3) : ℚ) * (7 / 10)) ∧
      (raster.data
          (((reliefIy raster lat).toNat * raster.width +
            (reliefIx raster lon).toNat) * 4 + 3) = 255 →
        (fullSweep raster invert view).data ((y * view.width + x) * 4 + 3) = 179)) ∧
    ((fastSweep raster invert view fastW fastH).data ((fy * fastW + fx) * 4) =
        raster.data
          (((reliefIy raster lat2).toNat * raster.width +
            (reliefIx raster lon2).toNat) * 4) ∧
      (fastSweep raster invert view fastW fastH).data ((fy * fastW + fx) * 4 + 1) =
        raster.data
          (((reliefIy raster lat2).toNat * raster.width +
            (reliefIx raster lon2).toNat) * 4 + 1) ∧
      (fastSweep raster invert view fastW fastH).data ((fy * fastW + fx) * 4 + 2) =
        raster.data
          (((reliefIy raster lat2).toNat * raster.width +
            (reliefIx raster lon2).toNat) * 4 + 2) ∧
      ((fastSweep raster invert view fastW fastH).data
          ((fy * fastW + fx) * 4 + 3) : ℤ) =
        round ((raster.data
          (((reliefIy raster lat2).toNat * raster.width +
            (reliefIx raster lon2).toNat) * 4 + 3) : ℚ) * (7 / 10)) ∧
      (raster.data
          (((reliefIy raster lat2).toNat * raster.width +
            (reliefIx raster lon2).toNat) * 4 + 3) = 255 →
        (fastSweep raster invert view fastW fastH).data
          ((fy * fastW + fx) * 4 + 3) = 179)) := by
  have hsamp := reliefSample_eq raster invert x y lon lat hinv hix0 hixW hiy0 hiyH
  have hsamp2 := reliefSample_eq raster invert
    ((fx : ℚ) / (fastW : ℚ) * (view.width : ℚ))
    ((fy : ℚ) / (fastH : ℚ) * (view.height : ℚ)) lon2 lat2 hinv2
    hix0q hixWq hiy0q hiyHq
  obtain ⟨e0, e1, e2, e3⟩ :=
    fullSweep_data_some raster invert view x y _ hx hy hsamp
  obtain ⟨f0, f1, f2, f3⟩ :=
    fastSweep_data_some raster invert view fastW fastH fx fy _ hfx hfy hsamp2
  refine ⟨⟨?_, ?_, ?_, ?_, ?_⟩, ⟨?_, ?_, ?_, ?_, ?_⟩⟩
  · rw [e0]
    exact u8store_byte _ (hbytes _)
  · rw [e1]
    exact u8store_byte _ (hbytes _)
  · rw [e2]
    exact u8store_byte _ (hbytes _)
  · rw [e3]
    exact u8store_round_alpha _ (hbytes _)
  · intro hop
    rw [e3, hop]
    show u8store (round (((255 : ℕ) : ℚ) * (7 / 10))) = 179
    rw [show (((255 : ℕ) : ℚ)) = (255 : ℚ) by norm_num, round_opaque_alpha]
    norm_num [u8store]
    decide
  · rw [f0]
    exact u8store_byte _ (hbytes _)
  · rw [f1]
    exact u8store_byte _ (hbytes _)
  · rw [f2]
    exact u8store_byte _ (hbytes _)
  · rw [f3]
    exact u8store_round_alpha _ (hbytes _)
  · intro hop
    rw [f3, hop]
    show u8store (round (((255 : ℕ) : ℚ) * (7 / 10))) = 179
    rw [show (((255 : ℕ) : ℚ)) = (255 : ℚ) by norm_num, round_opaque_alpha]
    norm_num [u8store]
    decide

/-- C7 (witness): on a 1×1 opaque raster, the composited alpha is 179 in
both the full and the fast sweep. -/
theorem relief_alpha_attenuation_witness :
    (fullSweep sampleRaster sampleInvert tinyView).data
        ((0 * tinyView.width + 0) * 4 + 3) = 179 ∧
    (fastSweep sampleRaster sampleInvert tinyView 1 1).data
        ((0 * 1 + 0) * 4 + 3) = 179 := by
  have h := relief_alpha_attenuation sampleRaster sampleInvert tinyView 1 1 0 0 0 0
    0 0 0 0
    (fun _ => le_refl 255) (by decide) (by decide) rfl
    (by norm_num [reliefIx, sampleRaster])
    (by norm_num [reliefIx, sampleRaster])
    (by norm_num [reliefIy, sampleRaster])
    (by norm_num [reliefIy, sampleRaster])
    (by decide) (by decide) rfl
    (by norm_num [reliefIx, sampleRaster])
    (by norm_num [reliefIx, sampleRaster])
    (by norm_num [reliefIy, sampleRaster])
    (by norm_num [reliefIy, sampleRaster])
  exact ⟨h.1.2.2.2.2 rfl, h.2.2.2.2.2 rfl⟩
